import Mathlib

/-!
# Verification of `Str` (src/str.hpp)

A shallow embedding of the reference-counted immutable string class `Str`.

The C++ class holds two raw pointers: `const char* ptr` (the character
buffer, `nullptr` when default-constructed) and `int* counter` (the shared
reference count, `nullptr` when default-constructed).  We model the heap
explicitly: allocations are identified by natural-number ids, and the heap
keeps two association lists, one mapping live buffer ids to their byte
contents (the full allocation, terminator included) and one mapping live
counter ids to their current `int` value.  `delete` removes the entry from
the list, so a freed allocation is one whose id no longer has an entry.
Bytes are modelled as `Nat` (the values of `unsigned char`; `strcmp`
compares as unsigned char).  A `Str` handle is the pair of its two pointer
fields, each `Option Nat` (`none` = `nullptr`).
-/

namespace CppStr

/-- Association-list lookup with `Nat` keys (a heap read through a pointer). -/
def lookupA {β : Type} : List (Nat × β) → Nat → Option β
  | [], _ => none
  | (k, v) :: rest, i => if i = k then some v else lookupA rest i

/-- Remove every entry with the given key (a `delete` of that allocation). -/
def eraseA {β : Type} : List (Nat × β) → Nat → List (Nat × β)
  | [], _ => []
  | (k, v) :: rest, i => if i = k then eraseA rest i else (k, v) :: eraseA rest i

/-- Add `d` to the value stored under key `k` (an in-place `(*p) += d`). -/
def bumpCtr (l : List (Nat × Int)) (k : Nat) (d : Int) : List (Nat × Int) :=
  l.map fun p => if p.1 = k then (p.1, p.2 + d) else p

/-- The heap: live buffer allocations, live counter allocations, and the next
fresh allocation id.  `new` hands out `next` (and `next + 1` for the second
allocation of a constructor) and advances it, so distinct `new`s never alias. -/
structure Heap where
  bufs : List (Nat × List Nat)
  ctrs : List (Nat × Int)
  next : Nat

/-- The empty heap: no allocations yet. -/
def emptyHeap : Heap := ⟨[], [], 0⟩

/-- A `Str` handle: the two pointer fields of the C++ object.
`ptr`/`counter` are `none` exactly when the C++ pointers are `nullptr`. -/
structure Str where
  ptr : Option Nat
  counter : Option Nat
deriving DecidableEq

/-- `Str() : ptr(nullptr), counter(nullptr)` — the default constructor. -/
def Str.mkUninit : Str := ⟨none, none⟩

/-- `Str(const char* str, size_t length)` — allocates `counter` (`new int`),
allocates `length + 1` chars, `memcpy`s the `length` bytes of `str`, writes
the terminating `0` at index `length`, and sets `*counter = 1`.
Input `s` is the `length` bytes the source pointer refers to. -/
def strFromBytes (s : List Nat) (h : Heap) : Str × Heap :=
  let bufId := h.next
  let ctrId := h.next + 1
  (⟨some bufId, some ctrId⟩,
   ⟨(bufId, s ++ [0]) :: h.bufs, (ctrId, 1) :: h.ctrs, h.next + 2⟩)

/-- `Str(const Str& other) : ptr(other.ptr), counter(other.counter)` —
copies both pointers and, if `counter != nullptr`, does `(*counter)++`. -/
def copyStr (other : Str) (h : Heap) : Str × Heap :=
  (⟨other.ptr, other.counter⟩,
   match other.counter with
   | none => h
   | some c => { h with ctrs := bumpCtr h.ctrs c 1 })

/-- `operator=(const Str& other)` — in source order: if the target's
`counter != nullptr`, `(*counter)--` (and nothing else: the source never
frees here even if the count reaches 0); then copy `other.ptr` and
`other.counter` into the target; then if the new `counter != nullptr`,
`(*counter)++`.  Returns the target's new field values and the heap. -/
def assignStr (target source : Str) (h : Heap) : Str × Heap :=
  let h1 := match target.counter with
    | none => h
    | some c => { h with ctrs := bumpCtr h.ctrs c (-1) }
  let h2 := match source.counter with
    | none => h1
    | some c => { h1 with ctrs := bumpCtr h1.ctrs c 1 }
  (⟨source.ptr, source.counter⟩, h2)

/-- `~Str()` — returns immediately when `counter == nullptr`; otherwise
`(*counter)--`, and if the decremented value is `0`, `delete[] ptr` and
`delete counter` (a `delete[]` of `nullptr` is a no-op). -/
def destructStr (s : Str) (h : Heap) : Heap :=
  match s.counter with
  | none => h
  | some c =>
    let ctrs1 := bumpCtr h.ctrs c (-1)
    if lookupA ctrs1 c = some 0 then
      { bufs := match s.ptr with
          | none => h.bufs
          | some p => eraseA h.bufs p,
        ctrs := eraseA ctrs1 c,
        next := h.next }
    else { h with ctrs := ctrs1 }

/-- `ref_count()` — `0` when `counter == nullptr`, else `*counter`.
Reading a dangling counter is undefined behaviour in the source; the model
defaults that read to `0` (never exercised by the theorems below). -/
def ref_count (h : Heap) (s : Str) : Int :=
  match s.counter with
  | none => 0
  | some c => (lookupA h.ctrs c).getD 0

/-- Read the bytes of the buffer allocation at `p` (dereferencing a buffer
pointer).  A dangling read is undefined behaviour in the source; the model
defaults it to `[]` (never exercised by the theorems below). -/
def readBuf (h : Heap) (p : Nat) : List Nat := (lookupA h.bufs p).getD []

/-- `c_str()` — the raw pointer, `nullptr` if uninitialized. -/
def c_str (s : Str) : Option Nat := s.ptr

/-- `valid()` — `counter == nullptr`.  (Returns `true` precisely for a
default-constructed handle, despite the method's name.) -/
def Str.valid (s : Str) : Bool := s.counter.isNone

/-- The C string a buffer allocation holds: its bytes up to (excluding) the
first `0` byte.  Every libc string function below reads through this view. -/
def cstring (l : List Nat) : List Nat := l.takeWhile (· ≠ 0)

/-- Lexicographic three-way comparison of byte sequences (unsigned bytes;
a strict prefix sorts first). -/
def lexCmp : List Nat → List Nat → Ordering
  | [], [] => .eq
  | [], _ :: _ => .lt
  | _ :: _, [] => .gt
  | a :: as, b :: bs => if a < b then .lt else if b < a then .gt else lexCmp as bs

/-- `strcmp` on two NUL-terminated allocations: the sign of the
lexicographic comparison of the two C strings, as mandated by the C
standard (comparison is of `unsigned char` values and stops at the first
difference or at the terminator). -/
def strcmp (l1 l2 : List Nat) : Int :=
  match lexCmp (cstring l1) (cstring l2) with
  | .lt => -1
  | .eq => 0
  | .gt => 1

/-- `operator==` — `true` on identical pointers (covers two `nullptr`s and
self-comparison), `false` when exactly one pointer is `nullptr`, otherwise
`strcmp(...) == 0`. -/
def strEq (h : Heap) (s1 s2 : Str) : Bool :=
  if s1.ptr = s2.ptr then true
  else match s1.ptr, s2.ptr with
    | none, _ => false
    | _, none => false
    | some p1, some p2 => strcmp (readBuf h p1) (readBuf h p2) = 0

/-- `operator!=` — `false` on identical pointers, `true` when exactly one
pointer is `nullptr`, otherwise `strcmp(...) != 0`. -/
def strNe (h : Heap) (s1 s2 : Str) : Bool :=
  if s1.ptr = s2.ptr then false
  else match s1.ptr, s2.ptr with
    | none, _ => true
    | _, none => true
    | some p1, some p2 => strcmp (readBuf h p1) (readBuf h p2) ≠ 0

/-- `operator<` — `false` on two `nullptr`s, `true` when only the left is
`nullptr`, `false` when only the right is, otherwise `strcmp(...) < 0`. -/
def strLt (h : Heap) (s1 s2 : Str) : Bool :=
  match s1.ptr, s2.ptr with
  | none, none => false
  | none, some _ => true
  | some _, none => false
  | some p1, some p2 => strcmp (readBuf h p1) (readBuf h p2) < 0

/-- `operator>` — `false` on two `nullptr`s, `false` when only the left is
`nullptr`, `true` when only the right is, otherwise `strcmp(...) > 0`. -/
def strGt (h : Heap) (s1 s2 : Str) : Bool :=
  match s1.ptr, s2.ptr with
  | none, none => false
  | none, some _ => false
  | some _, none => true
  | some p1, some p2 => strcmp (readBuf h p1) (readBuf h p2) > 0

/-- `operator<=` — `true` on two `nullptr`s, `true` when only the left is
`nullptr`, `false` when only the right is, otherwise `strcmp(...) <= 0`. -/
def strLe (h : Heap) (s1 s2 : Str) : Bool :=
  match s1.ptr, s2.ptr with
  | none, none => true
  | none, some _ => true
  | some _, none => false
  | some p1, some p2 => strcmp (readBuf h p1) (readBuf h p2) ≤ 0

/-- `operator>=` — `true` on two `nullptr`s, `false` when only the left is
`nullptr`, `true` when only the right is, otherwise `strcmp(...) >= 0`. -/
def strGe (h : Heap) (s1 s2 : Str) : Bool :=
  match s1.ptr, s2.ptr with
  | none, none => true
  | none, some _ => false
  | some _, none => true
  | some p1, some p2 => strcmp (readBuf h p1) (readBuf h p2) ≥ 0

/-- `operator<<` — the bytes written to the stream: the C string the buffer
holds when `ptr != nullptr`, nothing otherwise. -/
def printStr (h : Heap) (s : Str) : List Nat :=
  match s.ptr with
  | none => []
  | some p => cstring (readBuf h p)

/-- A decimal-digit byte (`'0'`..`'9'`). -/
def isDigitByte (c : Nat) : Bool := 48 ≤ c && c ≤ 57

/-- A whitespace byte in the `"C"` locale (`' '`, `'\t'`, `'\n'`, `'\v'`,
`'\f'`, `'\r'`), as `isspace` classifies for `atoi`. -/
def isSpaceByte (c : Nat) : Bool := c = 32 || (9 ≤ c && c ≤ 13)

/-- Accumulate decimal digits, stopping at the first non-digit byte. -/
def atoiDigits (acc : Int) : List Nat → Int
  | [] => acc
  | c :: cs => if isDigitByte c then atoiDigits (10 * acc + ((c : Int) - 48)) cs else acc

/-- Modelled from the C standard semantics of `std::atoi`, which
`Str::parse_to_int` calls (the function itself is libc, not in this
repository): skip leading whitespace, read an optional `+`/`-` sign, then
accumulate decimal digits until the first non-digit, returning `0` when no
digit was read.  `43`/`45` are the byte values of `'+'`/`'-'`. -/
def atoiBytes (l : List Nat) : Int :=
  match l.dropWhile isSpaceByte with
  | 43 :: rest => atoiDigits 0 rest
  | 45 :: rest => - atoiDigits 0 rest
  | rest => atoiDigits 0 rest

/-- `parse_to_int()` — `std::atoi(ptr)`.  Calling it with `ptr == nullptr`
is undefined behaviour in the source (documented in the spec); the model
defaults that case to `0` (never exercised by the theorems below). -/
def parse_to_int (h : Heap) (s : Str) : Int :=
  match s.ptr with
  | none => 0
  | some p => atoiBytes (cstring (readBuf h p))

/-! ## Helper lemmas -/

theorem lookupA_cons_self {β : Type} (l : List (Nat × β)) (k : Nat) (v : β) :
    lookupA ((k, v) :: l) k = some v := by
  simp [lookupA]

theorem lookupA_cons_ne {β : Type} (l : List (Nat × β)) {k k' : Nat} (v : β)
    (hne : k ≠ k') : lookupA ((k', v) :: l) k = lookupA l k := by
  simp [lookupA, hne]

theorem cstring_append_zero (s : List Nat) : cstring (s ++ [0]) = cstring s := by
  induction s with
  | nil => simp [cstring]
  | cons c cs ih =>
    by_cases hc : c = 0
    · simp [cstring, hc]
    · simpa [cstring, hc] using ih

theorem cstring_no_zero {s : List Nat} (hz : ∀ c ∈ s, c ≠ 0) : cstring s = s := by
  induction s with
  | nil => rfl
  | cons c cs ih =>
    have hc : c ≠ 0 := hz c (List.mem_cons_self c cs)
    have : cstring cs = cs := ih fun d hd => hz d (List.mem_cons_of_mem c hd)
    simpa [cstring, hc] using this

theorem lexCmp_self (l : List Nat) : lexCmp l l = .eq := by
  induction l with
  | nil => rfl
  | cons c cs ih => simp [lexCmp, ih]

theorem strcmp_self (l : List Nat) : strcmp l l = 0 := by
  simp [strcmp, lexCmp_self]

theorem lexCmp_eq_iff : ∀ {a b : List Nat}, lexCmp a b = .eq ↔ a = b
  | [], [] => by simp [lexCmp]
  | [], _ :: _ => by simp [lexCmp]
  | _ :: _, [] => by simp [lexCmp]
  | a :: as, b :: bs => by
    by_cases h1 : a < b
    · simp [lexCmp, h1]
      omega
    · by_cases h2 : b < a
      · simp [lexCmp, h1, h2]
        omega
      · have hab : a = b := by omega
        subst hab
        simp [lexCmp, lexCmp_eq_iff (a := as) (b := bs)]

theorem lexCmp_swap : ∀ (a b : List Nat), lexCmp b a = (lexCmp a b).swap
  | [], [] => rfl
  | [], _ :: _ => rfl
  | _ :: _, [] => rfl
  | a :: as, b :: bs => by
    by_cases h1 : a < b
    · have h2 : ¬ b < a := by omega
      simp [lexCmp, h1, h2, Ordering.swap]
    · by_cases h2 : b < a
      · simp [lexCmp, h1, h2, Ordering.swap]
      · simp [lexCmp, h1, h2, lexCmp_swap as bs]

theorem lexCmp_trans_lt : ∀ {a b c : List Nat},
    lexCmp a b = .lt → lexCmp b c = .lt → lexCmp a c = .lt
  | [], b, c => by
    intro h1 h2
    cases b with
    | nil => exact absurd h1 (by simp [lexCmp])
    | cons b0 bs =>
      cases c with
      | nil => exact absurd h2 (by simp [lexCmp])
      | cons c0 cs => simp [lexCmp]
  | a0 :: as, b, c => by
    intro h1 h2
    cases b with
    | nil => exact absurd h1 (by simp [lexCmp])
    | cons b0 bs =>
      cases c with
      | nil => exact absurd h2 (by simp [lexCmp])
      | cons c0 cs =>
        rw [lexCmp] at h1 h2 ⊢
        by_cases hab : a0 < b0
        · rw [if_pos hab] at h1
          by_cases hbc : b0 < c0
          · rw [if_pos (by omega : a0 < c0)]
          · by_cases hcb : c0 < b0
            · rw [if_neg hbc, if_pos hcb] at h2
              exact absurd h2 (by simp)
            · rw [if_pos (by omega : a0 < c0)]
        · by_cases hba : b0 < a0
          · rw [if_neg hab, if_pos hba] at h1
            exact absurd h1 (by simp)
          · rw [if_neg hab, if_neg hba] at h1
            by_cases hbc : b0 < c0
            · rw [if_pos (by omega : a0 < c0)]
            · by_cases hcb : c0 < b0
              · rw [if_neg hbc, if_pos hcb] at h2
                exact absurd h2 (by simp)
              · rw [if_neg hbc, if_neg hcb] at h2
                rw [if_neg (by omega : ¬ a0 < c0), if_neg (by omega : ¬ c0 < a0)]
                exact lexCmp_trans_lt h1 h2

theorem strcmp_lt_iff (x y : List Nat) :
    strcmp x y < 0 ↔ lexCmp (cstring x) (cstring y) = .lt := by
  rw [strcmp]
  cases lexCmp (cstring x) (cstring y) <;> simp

theorem strcmp_gt_iff (x y : List Nat) :
    strcmp x y > 0 ↔ lexCmp (cstring x) (cstring y) = .gt := by
  rw [strcmp]
  cases lexCmp (cstring x) (cstring y) <;> simp

theorem strcmp_le_iff (x y : List Nat) :
    strcmp x y ≤ 0 ↔ lexCmp (cstring x) (cstring y) ≠ .gt := by
  rw [strcmp]
  cases lexCmp (cstring x) (cstring y) <;> simp

theorem strcmp_ge_iff (x y : List Nat) :
    strcmp x y ≥ 0 ↔ lexCmp (cstring x) (cstring y) ≠ .lt := by
  rw [strcmp]
  cases lexCmp (cstring x) (cstring y) <;> simp

theorem strcmp_eq_zero_iff (x y : List Nat) :
    strcmp x y = 0 ↔ lexCmp (cstring x) (cstring y) = .eq := by
  rw [strcmp]
  cases lexCmp (cstring x) (cstring y) <;> simp

theorem lexCmp_trans_ne_gt : ∀ {a b c : List Nat},
    lexCmp a b ≠ .gt → lexCmp b c ≠ .gt → lexCmp a c ≠ .gt := by
  intro a b c h1 h2
  cases hab : lexCmp a b with
  | lt =>
    cases hbc : lexCmp b c with
    | lt => simp [lexCmp_trans_lt hab hbc]
    | eq =>
      have hbeq : b = c := lexCmp_eq_iff.mp hbc
      subst hbeq
      simp [hab]
    | gt => exact absurd hbc h2
  | eq =>
    have haeq : a = b := lexCmp_eq_iff.mp hab
    subst haeq
    exact h2
  | gt => exact absurd hab h1

theorem decide_le_zero_eq_not_gt (t : Int) : decide (t ≤ 0) = !decide (t > 0) := by
  by_cases h : t ≤ 0 <;> simp [h] <;> omega

theorem decide_ge_zero_eq_not_lt (t : Int) : decide (t ≥ 0) = !decide (t < 0) := by
  by_cases h : t ≥ 0 <;> simp [h] <;> omega

theorem strcmp_gt_iff_lt_swap (x y : List Nat) : strcmp x y > 0 ↔ strcmp y x < 0 := by
  rw [strcmp_gt_iff, strcmp_lt_iff, lexCmp_swap (cstring x) (cstring y)]
  cases lexCmp (cstring x) (cstring y) <;> simp [Ordering.swap]

theorem strcmp_trans_lt {x y z : List Nat}
    (h1 : strcmp x y < 0) (h2 : strcmp y z < 0) : strcmp x z < 0 := by
  rw [strcmp_lt_iff] at h1 h2 ⊢
  exact lexCmp_trans_lt h1 h2

theorem strcmp_trans_le {x y z : List Nat}
    (h1 : strcmp x y ≤ 0) (h2 : strcmp y z ≤ 0) : strcmp x z ≤ 0 := by
  rw [strcmp_le_iff] at h1 h2 ⊢
  exact lexCmp_trans_ne_gt h1 h2

theorem lookupA_eq_none {β : Type} {l : List (Nat × β)} {k : Nat}
    (hk : ∀ e ∈ l, e.1 ≠ k) : lookupA l k = none := by
  induction l with
  | nil => rfl
  | cons e rest ih =>
    obtain ⟨k', v'⟩ := e
    have h1 : k ≠ k' := fun h => hk (k', v') (List.mem_cons_self _ _) h.symm
    simpa [lookupA, h1] using ih fun e he => hk e (List.mem_cons_of_mem _ he)

theorem lookupA_eraseA_self {β : Type} (l : List (Nat × β)) (i : Nat) :
    lookupA (eraseA l i) i = none := by
  induction l with
  | nil => rfl
  | cons e rest ih =>
    obtain ⟨k, v⟩ := e
    by_cases hk : i = k
    · simpa [eraseA, hk] using ih
    · simpa [eraseA, lookupA, hk] using ih

theorem lookupA_of_eraseA {β : Type} {l : List (Nat × β)} {i k : Nat} {v : β}
    (h : lookupA (eraseA l i) k = some v) : lookupA l k = some v := by
  induction l with
  | nil => simp [eraseA, lookupA] at h
  | cons e rest ih =>
    obtain ⟨k', v'⟩ := e
    by_cases h1 : i = k'
    · subst h1
      by_cases h2 : k = i
      · subst h2
        rw [lookupA_eraseA_self] at h
        exact absurd h (by simp)
      · rw [eraseA] at h
        simp only [if_pos rfl] at h
        simpa [lookupA, h2] using ih h
    · rw [eraseA] at h
      simp only [if_neg h1] at h
      by_cases h2 : k = k'
      · subst h2
        simpa [lookupA] using h
      · rw [lookupA, if_neg h2] at h
        simpa [lookupA, h2] using ih h

/-! ## Claim scenarios -/

/-- Self-assignment scenario: construct a handle from `s` in the empty heap,
then assign it to itself. -/
def selfAssignScenario (s : List Nat) : Str × Heap :=
  let ah := strFromBytes s emptyHeap
  assignStr ah.1 ah.1 ah.2

/-- Shared-assignment scenario: construct `a` from `s`, copy-construct `b`
from it (count 2), then `a = b`. -/
def sharedAssignScenario (s : List Nat) : Str × Heap :=
  let ah := strFromBytes s emptyHeap
  let bh := copyStr ah.1 ah.2
  assignStr ah.1 bh.1 bh.2

/-- Two handles constructed independently, the first from `s1`, the second
from `s2`: returns both handles and the final heap. -/
def twoFromBytes (s1 s2 : List Nat) (h : Heap) : Str × Str × Heap :=
  let ah := strFromBytes s1 h
  let bh := strFromBytes s2 ah.2
  (ah.1, bh.1, bh.2)

/-- Overwrite-last-reference scenario: `Str h1("a", 1); Str h2("b", 1);
h1 = h2;` — the assignment drops the last reference to `h1`'s original
buffer (allocation ids: buffer 0, counter 1). -/
def overwriteLastRef : Str × Heap :=
  let ah := strFromBytes [97] emptyHeap
  let bh := strFromBytes [98] ah.2
  assignStr ah.1 bh.1 bh.2

/-- Well-formed heap: every live allocation id is below the fresh-id bound,
so the next `new` cannot alias a live allocation. -/
def heapWF (h : Heap) : Prop :=
  (∀ e ∈ h.bufs, e.1 < h.next) ∧ (∀ e ∈ h.ctrs, e.1 < h.next)

/-- Copy-construct `n` handles from the same source handle, one after the
other; returns the copies and the final heap. -/
def copyNTimes : Nat → Str → Heap → List Str × Heap
  | 0, _, h => ([], h)
  | n + 1, x, h =>
    let ch := copyStr x h
    let rest := copyNTimes n x ch.2
    (ch.1 :: rest.1, rest.2)

/-- Run the destructor of each handle in the list, in order. -/
def destroyAll : List Str → Heap → Heap
  | [], h => h
  | x :: xs, h => destroyAll xs (destructStr x h)

theorem copyStr_ctr (B : List (Nat × List Nat)) (v : Int) (nx : Nat) :
    copyStr ⟨some 0, some 1⟩ ⟨B, [(1, v)], nx⟩ =
      (⟨some 0, some 1⟩, ⟨B, [(1, v + 1)], nx⟩) := by
  simp [copyStr, bumpCtr]

theorem copyNTimes_shape (n : Nat) (B : List (Nat × List Nat)) (v : Int) (nx : Nat) :
    copyNTimes n ⟨some 0, some 1⟩ ⟨B, [(1, v)], nx⟩ =
      (List.replicate n (⟨some 0, some 1⟩ : Str), ⟨B, [(1, v + n)], nx⟩) := by
  induction n generalizing v with
  | zero => simp [copyNTimes]
  | succ n ih =>
    rw [copyNTimes]
    simp only [copyStr_ctr, ih (v + 1), List.replicate_succ]
    refine congrArg (Prod.mk _) ?_
    have : v + 1 + (n : Int) = v + ((n : Nat) + 1 : Nat) := by push_cast; ring
    rw [this]

theorem destructStr_ctr (B : List (Nat × List Nat)) (v : Int) (nx : Nat)
    (hv : v ≠ 1) :
    destructStr ⟨some 0, some 1⟩ ⟨B, [(1, v)], nx⟩ = ⟨B, [(1, v - 1)], nx⟩ := by
  rw [destructStr]
  simp only [bumpCtr, List.map, if_pos rfl, lookupA]
  rw [if_neg (by simp; omega)]
  have h1 : v + -1 = v - 1 := by omega
  simp [h1]

theorem destructStr_last (s : List Nat) :
    destructStr ⟨some 0, some 1⟩ ⟨[(0, s ++ [0])], [(1, 1)], 2⟩ = ⟨[], [], 2⟩ := by
  simp [destructStr, bumpCtr, lookupA, eraseA]

theorem destroyAll_shape (k : Nat) (B : List (Nat × List Nat)) (v : Int) (nx : Nat)
    (hv : (k : Int) < v) :
    destroyAll (List.replicate k (⟨some 0, some 1⟩ : Str)) ⟨B, [(1, v)], nx⟩ =
      ⟨B, [(1, v - k)], nx⟩ := by
  induction k generalizing v with
  | zero => simp [destroyAll]
  | succ k ih =>
    rw [List.replicate_succ, destroyAll,
      destructStr_ctr B v nx (by push_cast at hv; omega),
      ih (v - 1) (by push_cast at hv ⊢; omega)]
    refine congrArg (Heap.mk B · nx) ?_
    have : v - 1 - (k : Int) = v - ((k : Nat) + 1 : Nat) := by push_cast; ring
    rw [this]

/-! ## Claims -/

/-- C4: the validity predicate `valid()` returns `true` exactly when the
handle is Uninitialized (default-constructed, `counter == nullptr`), and
returns `false` for every handle constructed from content. -/
theorem C4_valid_true_iff_uninitialized :
    Str.mkUninit.valid = true ∧
    (∀ x : Str, x.valid = true ↔ x.counter = none) ∧
    (∀ (s : List Nat) (h : Heap), ((strFromBytes s h).1).valid = false) := by
  refine ⟨rfl, fun x => ?_, fun s h => rfl⟩
  simp [Str.valid]

/-- C2: assigning a freshly constructed handle to itself leaves its fields,
its reference count (1) and its buffer contents unchanged and frees nothing;
and when `a` and a copy `b` alias the same buffer (count 2), `a = b` leaves
the count at 2 and frees nothing. -/
theorem C2_self_and_shared_assignment_safe (s : List Nat) :
    ((selfAssignScenario s).1 = (strFromBytes s emptyHeap).1 ∧
      ref_count (selfAssignScenario s).2 (selfAssignScenario s).1 = 1 ∧
      (selfAssignScenario s).2.bufs = (strFromBytes s emptyHeap).2.bufs ∧
      readBuf (selfAssignScenario s).2 0 = s ++ [0]) ∧
    (ref_count (copyStr (strFromBytes s emptyHeap).1 (strFromBytes s emptyHeap).2).2
        (strFromBytes s emptyHeap).1 = 2 ∧
      (sharedAssignScenario s).1 = (strFromBytes s emptyHeap).1 ∧
      ref_count (sharedAssignScenario s).2 (sharedAssignScenario s).1 = 2 ∧
      (sharedAssignScenario s).2.bufs =
        (copyStr (strFromBytes s emptyHeap).1 (strFromBytes s emptyHeap).2).2.bufs) := by
  refine ⟨⟨rfl, ?_, rfl, ?_⟩, ⟨?_, rfl, ?_, rfl⟩⟩ <;>
    simp [selfAssignScenario, sharedAssignScenario, strFromBytes, assignStr, copyStr,
      ref_count, readBuf, lookupA, bumpCtr, emptyHeap]

/-- C8: `parse_to_int` on an Initialized handle interprets the stored C
string with `atoi`'s standard whitespace/sign/digit rules; concretely,
a handle built from `"42"` parses to `42`, from `"-7"` to `-7`, and from
`"abc"` to `0`. -/
theorem C8_parse_to_int_decimal :
    (∀ (s : List Nat) (h : Heap),
      parse_to_int (strFromBytes s h).2 (strFromBytes s h).1 = atoiBytes (cstring s)) ∧
    parse_to_int (strFromBytes [52, 50] emptyHeap).2 (strFromBytes [52, 50] emptyHeap).1 = 42 ∧
    parse_to_int (strFromBytes [45, 55] emptyHeap).2 (strFromBytes [45, 55] emptyHeap).1 = -7 ∧
    parse_to_int (strFromBytes [97, 98, 99] emptyHeap).2
      (strFromBytes [97, 98, 99] emptyHeap).1 = 0 := by
  refine ⟨fun s h => ?_, by decide, by decide, by decide⟩
  simp [parse_to_int, strFromBytes, readBuf, lookupA, cstring_append_zero]

/-- C1 (refutation of the free-on-zero part): after `Str h1("a", 1);
Str h2("b", 1); h1 = h2;` the assignment has decremented the old buffer's
counter to `0`, yet both the buffer (allocation id 0, holding `"a\0"`) and
its counter (allocation id 1) are still allocated — `operator=` never frees,
so the last reference is leaked instead of freed. -/
theorem C1_assignment_leaks_on_zero :
    ref_count overwriteLastRef.2 (strFromBytes [97] emptyHeap).1 = 0 ∧
    lookupA overwriteLastRef.2.bufs 0 = some [97, 0] ∧
    lookupA overwriteLastRef.2.ctrs 1 = some 0 := by
  decide

/-- C6: equality is reflexive for every handle (identical-pointer fast
path, Uninitialized included); two handles constructed independently from
the same content `s` are distinct allocations yet compare equal; and when
exactly one side is Uninitialized, `==` is `false` and `!=` is `true`. -/
theorem C6_equality_reflexive_content_based :
    (∀ (h : Heap) (x : Str), strEq h x x = true) ∧
    (∀ (s : List Nat) (h : Heap),
      (twoFromBytes s s h).1.ptr ≠ (twoFromBytes s s h).2.1.ptr ∧
      strEq (twoFromBytes s s h).2.2 (twoFromBytes s s h).1 (twoFromBytes s s h).2.1 = true) ∧
    (∀ (h : Heap) (y : Str) (p : Nat), y.ptr = some p →
      strEq h Str.mkUninit y = false ∧ strNe h Str.mkUninit y = true ∧
      strEq h y Str.mkUninit = false ∧ strNe h y Str.mkUninit = true) := by
  refine ⟨fun h x => by simp [strEq], fun s h => ⟨?_, ?_⟩, fun h y p hp => ?_⟩
  · simp [twoFromBytes, strFromBytes]
  · have hne : h.next ≠ h.next + 2 := by omega
    simp [twoFromBytes, strFromBytes, strEq, readBuf, lookupA, hne, strcmp_self]
  · simp [strEq, strNe, Str.mkUninit, hp]

/-- C6 witness: the one-side-Uninitialized conjunct at a handle built from
`"a"`: `==` is `false` and `!=` is `true` against a default-constructed
handle. -/
theorem C6_equality_reflexive_content_based_witness :
    strEq (strFromBytes [97] emptyHeap).2 Str.mkUninit (strFromBytes [97] emptyHeap).1 = false ∧
    strNe (strFromBytes [97] emptyHeap).2 Str.mkUninit (strFromBytes [97] emptyHeap).1 = true :=
  ⟨(C6_equality_reflexive_content_based.2.2 _ _ 0 rfl).1,
   (C6_equality_reflexive_content_based.2.2 _ _ 0 rfl).2.1⟩

/-- C10: two byte sequences that agree up to and including their first
embedded zero byte but differ afterwards produce handles whose underlying
buffers hold different bytes, yet `==` is `true` and `!=` is `false`:
the comparison reads only up to the first zero byte. -/
theorem C10_equality_stops_at_zero_byte (s1 s2 : List Nat) (h : Heap)
    (hagree : cstring s1 = cstring s2) (hz1 : (0 : Nat) ∈ s1) (hz2 : (0 : Nat) ∈ s2)
    (hne : s1 ≠ s2) :
    s1 ++ [0] ≠ s2 ++ [0] ∧
    readBuf (twoFromBytes s1 s2 h).2.2 h.next = s1 ++ [0] ∧
    readBuf (twoFromBytes s1 s2 h).2.2 (h.next + 2) = s2 ++ [0] ∧
    strEq (twoFromBytes s1 s2 h).2.2 (twoFromBytes s1 s2 h).1 (twoFromBytes s1 s2 h).2.1 = true ∧
    strNe (twoFromBytes s1 s2 h).2.2 (twoFromBytes s1 s2 h).1 (twoFromBytes s1 s2 h).2.1
      = false := by
  have hnext : h.next ≠ h.next + 2 := by omega
  have hcmp : strcmp (s1 ++ [0]) (s2 ++ [0]) = 0 := by
    simp [strcmp, cstring_append_zero, hagree, lexCmp_self]
  refine ⟨fun hc => hne (by simpa using hc), ?_, ?_, ?_, ?_⟩ <;>
    simp [twoFromBytes, strFromBytes, strEq, strNe, readBuf, lookupA, hnext, hcmp]

/-- C10 witness: `s1 = [97, 0, 98]` and `s2 = [97, 0, 99]` (`"a\0b"` vs
`"a\0c"`) agree through their first zero byte, differ after it, and the
two handles compare equal. -/
theorem C10_equality_stops_at_zero_byte_witness :
    strEq (twoFromBytes [97, 0, 98] [97, 0, 99] emptyHeap).2.2
      (twoFromBytes [97, 0, 98] [97, 0, 99] emptyHeap).1
      (twoFromBytes [97, 0, 98] [97, 0, 99] emptyHeap).2.1 = true :=
  (C10_equality_stops_at_zero_byte [97, 0, 98] [97, 0, 99] emptyHeap (by decide)
    (by decide) (by decide) (by decide)).2.2.2.1

/-- C9: rendering a default-constructed handle writes nothing, for any heap;
rendering a handle constructed from content `s` writes the C string of its
buffer, which is exactly `s` whenever `s` has no embedded zero byte. -/
theorem C9_render_content_or_nothing :
    (∀ h : Heap, printStr h Str.mkUninit = []) ∧
    (∀ (s : List Nat) (h : Heap),
      printStr (strFromBytes s h).2 (strFromBytes s h).1 = cstring s) ∧
    (∀ (s : List Nat) (h : Heap), (∀ c ∈ s, c ≠ 0) →
      printStr (strFromBytes s h).2 (strFromBytes s h).1 = s) := by
  have base : ∀ (s : List Nat) (h : Heap),
      printStr (strFromBytes s h).2 (strFromBytes s h).1 = cstring s := by
    intro s h
    simp [printStr, strFromBytes, readBuf, lookupA, cstring_append_zero]
  exact ⟨fun h => rfl, base, fun s h hz => (base s h).trans (cstring_no_zero hz)⟩

/-- C9 witness: a handle built from `"hi"` renders exactly `"hi"`. -/
theorem C9_render_content_or_nothing_witness :
    printStr (strFromBytes [104, 105] emptyHeap).2 (strFromBytes [104, 105] emptyHeap).1
      = [104, 105] :=
  C9_render_content_or_nothing.2.2 [104, 105] emptyHeap (by decide)

/-- C7: construction from `(s, n)` allocates a fresh buffer of `n + 1`
bytes holding `s` followed by the zero terminator, and no operation ever
changes the contents of a live buffer: copy construction and assignment
leave the buffer store untouched, destruction at most removes an
allocation, and a later construction only adds a fresh one. -/
theorem C7_construction_roundtrip_immutable (s : List Nat) (h : Heap)
    (hwf : heapWF h) :
    (strFromBytes s h).1.ptr = some h.next ∧
    lookupA h.bufs h.next = none ∧
    lookupA ((strFromBytes s h).2).bufs h.next = some (s ++ [0]) ∧
    (s ++ [0]).length = s.length + 1 ∧
    (∀ (x : Str) (h2 : Heap), ((copyStr x h2).2).bufs = h2.bufs) ∧
    (∀ (x y : Str) (h2 : Heap), ((assignStr x y h2).2).bufs = h2.bufs) ∧
    (∀ (x : Str) (h2 : Heap) (p : Nat) (d : List Nat),
      lookupA ((destructStr x h2).bufs) p = some d → lookupA h2.bufs p = some d) ∧
    (∀ (t : List Nat) (h2 : Heap) (p : Nat) (d : List Nat), p ≠ h2.next →
      lookupA h2.bufs p = some d → lookupA ((strFromBytes t h2).2).bufs p = some d) := by
  refine ⟨rfl, lookupA_eq_none fun e he => Nat.ne_of_lt (hwf.1 e he), ?_, by simp,
    fun x h2 => ?_, fun x y h2 => ?_, fun x h2 p d hd => ?_, fun t h2 p d hp hd => ?_⟩
  · simp [strFromBytes, lookupA]
  · cases hx : x.counter <;> simp [copyStr, hx]
  · cases hx : x.counter <;> cases hy : y.counter <;> simp [assignStr, hx, hy]
  · rw [destructStr] at hd
    cases hx : x.counter with
    | none => rw [hx] at hd; exact hd
    | some c =>
      rw [hx] at hd
      simp only at hd
      by_cases hzero : lookupA (bumpCtr h2.ctrs c (-1)) c = some 0
      · rw [if_pos hzero] at hd
        cases hp : x.ptr with
        | none => rw [hp] at hd; exact hd
        | some q => rw [hp] at hd; exact lookupA_of_eraseA hd
      · rw [if_neg hzero] at hd
        exact hd
  · rw [strFromBytes]
    simpa [lookupA, hp] using hd

/-- C7 witness: in the empty heap (trivially well-formed), constructing
from `"a"` stores `[97, 0]` at the fresh buffer id `0`. -/
theorem C7_construction_roundtrip_immutable_witness :
    lookupA ((strFromBytes [97] emptyHeap).2).bufs 0 = some [97, 0] :=
  (C7_construction_roundtrip_immutable [97] emptyHeap
    ⟨fun e he => by simp [emptyHeap] at he, fun e he => by simp [emptyHeap] at he⟩).2.2.1

/-- C5: the six comparison operators form a consistent total order over
{Uninitialized} and the byte sequences: `>` mirrors `<`, `<=`/`>=` are the
negations of `>`/`<`, `!=` negates `==`; an Uninitialized handle sorts
strictly before every Initialized handle; two Uninitialized handles are
neither `<` nor `>` but both `<=` and `>=`; two Initialized handles are
ordered by lexicographic byte comparison of their (C string) contents;
and the order is total, antisymmetric up to `==`, and transitive. -/
theorem C5_comparisons_consistent_total_order :
    (∀ (h : Heap) (a b : Str), strGt h a b = strLt h b a) ∧
    (∀ (h : Heap) (a b : Str), strLe h a b = !strGt h a b) ∧
    (∀ (h : Heap) (a b : Str), strGe h a b = !strLt h a b) ∧
    (∀ (h : Heap) (a b : Str), strNe h a b = !strEq h a b) ∧
    (∀ (h : Heap) (x : Str) (p : Nat), x.ptr = some p →
      strLt h Str.mkUninit x = true ∧ strGt h x Str.mkUninit = true ∧
      strLe h Str.mkUninit x = true ∧ strGe h x Str.mkUninit = true ∧
      strLt h x Str.mkUninit = false ∧ strGt h Str.mkUninit x = false ∧
      strLe h x Str.mkUninit = false ∧ strGe h Str.mkUninit x = false) ∧
    (∀ (h : Heap) (u v : Str), u.ptr = none → v.ptr = none →
      strLt h u v = false ∧ strGt h u v = false ∧
      strLe h u v = true ∧ strGe h u v = true) ∧
    (∀ (h : Heap) (a b : Str) (p q : Nat), a.ptr = some p → b.ptr = some q →
      (strLt h a b = true ↔ lexCmp (cstring (readBuf h p)) (cstring (readBuf h q)) = .lt) ∧
      (strGt h a b = true ↔ lexCmp (cstring (readBuf h p)) (cstring (readBuf h q)) = .gt) ∧
      (strLe h a b = true ↔ lexCmp (cstring (readBuf h p)) (cstring (readBuf h q)) ≠ .gt) ∧
      (strGe h a b = true ↔ lexCmp (cstring (readBuf h p)) (cstring (readBuf h q)) ≠ .lt)) ∧
    (∀ (h : Heap) (a b : Str), strLe h a b = true ∨ strGe h a b = true) ∧
    (∀ (h : Heap) (a b : Str),
      strLe h a b = true → strGe h a b = true → strEq h a b = true) ∧
    (∀ (h : Heap) (a b c : Str),
      strLt h a b = true → strLt h b c = true → strLt h a c = true) ∧
    (∀ (h : Heap) (a b c : Str),
      strLe h a b = true → strLe h b c = true → strLe h a c = true) := by
  refine ⟨fun h a b => ?_, fun h a b => ?_, fun h a b => ?_, fun h a b => ?_,
    fun h x p hp => ?_, fun h u v hu hv => ?_, fun h a b p q hp hq => ?_,
    fun h a b => ?_, fun h a b => ?_, fun h a b c => ?_, fun h a b c => ?_⟩
  · cases hpa : a.ptr <;> cases hpb : b.ptr <;>
      simp [strGt, strLt, hpa, hpb, strcmp_gt_iff_lt_swap]
  · cases hpa : a.ptr <;> cases hpb : b.ptr <;>
      simp only [strLe, strGt, hpa, hpb, decide_le_zero_eq_not_gt, Bool.not_true,
        Bool.not_false]
  · cases hpa : a.ptr <;> cases hpb : b.ptr <;>
      simp only [strGe, strLt, hpa, hpb, decide_ge_zero_eq_not_lt, Bool.not_true,
        Bool.not_false]
  · cases hpa : a.ptr <;> cases hpb : b.ptr <;>
      by_cases hab : a.ptr = b.ptr <;>
      simp_all [strNe, strEq]
  · simp [strLt, strGt, strLe, strGe, Str.mkUninit, hp]
  · simp [strLt, strGt, strLe, strGe, hu, hv]
  · simp [strLt, strGt, strLe, strGe, hp, hq, strcmp_lt_iff, strcmp_gt_iff,
      strcmp_le_iff, strcmp_ge_iff]
  · cases hpa : a.ptr <;> cases hpb : b.ptr <;> simp [strLe, strGe, hpa, hpb] <;> omega
  · intro h1 h2
    cases hpa : a.ptr with
    | none =>
      cases hpb : b.ptr with
      | none => simp [strEq, hpa, hpb]
      | some q => rw [strGe] at h2; rw [hpa, hpb] at h2; exact absurd h2 (by simp)
    | some p =>
      cases hpb : b.ptr with
      | none => rw [strLe] at h1; rw [hpa, hpb] at h1; exact absurd h1 (by simp)
      | some q =>
        rw [strLe] at h1; rw [hpa, hpb] at h1
        rw [strGe] at h2; rw [hpa, hpb] at h2
        have hle : strcmp (readBuf h p) (readBuf h q) ≤ 0 := by simpa using h1
        have hge : strcmp (readBuf h p) (readBuf h q) ≥ 0 := by simpa using h2
        have hz : strcmp (readBuf h p) (readBuf h q) = 0 := le_antisymm hle hge
        rw [strEq, hpa, hpb]
        by_cases hpq : (some p : Option Nat) = some q
        · rw [if_pos hpq]
        · rw [if_neg hpq]
          simp [hz]
  · intro h1 h2
    cases hpa : a.ptr with
    | none =>
      cases hpc : c.ptr with
      | none =>
        cases hpb : b.ptr with
        | none => rw [strLt] at h1; rw [hpa, hpb] at h1; exact absurd h1 (by simp)
        | some q => rw [strLt] at h2; rw [hpb, hpc] at h2; exact absurd h2 (by simp)
      | some r => simp [strLt, hpa, hpc]
    | some p =>
      cases hpb : b.ptr with
      | none => rw [strLt] at h1; rw [hpa, hpb] at h1; exact absurd h1 (by simp)
      | some q =>
        cases hpc : c.ptr with
        | none => rw [strLt] at h2; rw [hpb, hpc] at h2; exact absurd h2 (by simp)
        | some r =>
          rw [strLt] at h1 h2 ⊢; rw [hpa, hpb] at h1; rw [hpb, hpc] at h2; rw [hpa, hpc]
          have hxy : strcmp (readBuf h p) (readBuf h q) < 0 := by simpa using h1
          have hyz : strcmp (readBuf h q) (readBuf h r) < 0 := by simpa using h2
          simpa using strcmp_trans_lt hxy hyz
  · intro h1 h2
    cases hpa : a.ptr with
    | none =>
      cases hpc : c.ptr <;> simp [strLe, hpa, hpc]
    | some p =>
      cases hpb : b.ptr with
      | none => rw [strLe] at h1; rw [hpa, hpb] at h1; exact absurd h1 (by simp)
      | some q =>
        cases hpc : c.ptr with
        | none => rw [strLe] at h2; rw [hpb, hpc] at h2; exact absurd h2 (by simp)
        | some r =>
          rw [strLe] at h1 h2 ⊢; rw [hpa, hpb] at h1; rw [hpb, hpc] at h2; rw [hpa, hpc]
          have hxy : strcmp (readBuf h p) (readBuf h q) ≤ 0 := by simpa using h1
          have hyz : strcmp (readBuf h q) (readBuf h r) ≤ 0 := by simpa using h2
          simpa using strcmp_trans_le hxy hyz

/-- Lifecycle scenario: construct a handle from `s` in the empty heap and
copy-construct `n` further handles from it. -/
def lifecycle (s : List Nat) (n : Nat) : List Str × Heap :=
  copyNTimes n (strFromBytes s emptyHeap).1 (strFromBytes s emptyHeap).2

/-- C3: a handle constructed from content has reference count 1; after `n`
copies every sharing handle observes count `n + 1`; destroying the first
`k` copies leaves count `n + 1 - k` (each destruction decrements by exactly
1); after all copies are destroyed the count is back to 1; and destroying
the last handle frees the buffer and the counter (the heap is empty). -/
theorem C3_refcount_lifecycle (s : List Nat) (n : Nat) :
    ref_count (strFromBytes s emptyHeap).2 (strFromBytes s emptyHeap).1 = 1 ∧
    ref_count (lifecycle s n).2 (strFromBytes s emptyHeap).1 = (n : Int) + 1 ∧
    (∀ c ∈ (lifecycle s n).1, c = (strFromBytes s emptyHeap).1) ∧
    (∀ c ∈ (lifecycle s n).1, ref_count (lifecycle s n).2 c = (n : Int) + 1) ∧
    (∀ k : Nat, k ≤ n →
      ref_count (destroyAll (List.take k (lifecycle s n).1) (lifecycle s n).2)
        (strFromBytes s emptyHeap).1 = (n : Int) + 1 - (k : Int)) ∧
    ref_count (destroyAll (lifecycle s n).1 (lifecycle s n).2)
      (strFromBytes s emptyHeap).1 = 1 ∧
    (destructStr (strFromBytes s emptyHeap).1
      (destroyAll (lifecycle s n).1 (lifecycle s n).2)).bufs = [] ∧
    (destructStr (strFromBytes s emptyHeap).1
      (destroyAll (lifecycle s n).1 (lifecycle s n).2)).ctrs = [] := by
  have hstart : strFromBytes s emptyHeap =
      (⟨some 0, some 1⟩, ⟨[(0, s ++ [0])], [(1, 1)], 2⟩) := rfl
  have hlife : lifecycle s n =
      (List.replicate n (⟨some 0, some 1⟩ : Str), ⟨[(0, s ++ [0])], [(1, 1 + n)], 2⟩) := by
    rw [lifecycle, hstart]
    exact copyNTimes_shape n [(0, s ++ [0])] 1 2
  have hfinal : destroyAll (lifecycle s n).1 (lifecycle s n).2 =
      ⟨[(0, s ++ [0])], [(1, 1)], 2⟩ := by
    rw [hlife]
    rw [destroyAll_shape n [(0, s ++ [0])] (1 + n) 2 (by omega)]
    have h1 : (1 : Int) + n - n = 1 := by omega
    rw [h1]
  refine ⟨?_, ?_, fun c hc => ?_, fun c hc => ?_, fun k hk => ?_, ?_, ?_, ?_⟩
  · rw [hstart]
    simp [ref_count, lookupA]
  · rw [hlife, hstart]
    simp [ref_count, lookupA]
    omega
  · rw [hlife] at hc
    rw [hstart]
    simpa using List.eq_of_mem_replicate hc
  · rw [hlife] at hc ⊢
    have hce := List.eq_of_mem_replicate hc
    subst hce
    simp [ref_count, lookupA]
    omega
  · rw [hlife, hstart]
    simp only [List.take_replicate, Nat.min_eq_left hk]
    rw [destroyAll_shape k [(0, s ++ [0])] (1 + n) 2 (by omega)]
    simp [ref_count, lookupA]
    omega
  · rw [hfinal, hstart]
    simp [ref_count, lookupA]
  · rw [hfinal, hstart, destructStr_last]
  · rw [hfinal, hstart, destructStr_last]

/-- C3 witness: with content `"hi"` and two copies (count 3), destroying
one copy leaves count 2. -/
theorem C3_refcount_lifecycle_witness :
    ref_count (destroyAll (List.take 1 (lifecycle [104, 105] 2).1) (lifecycle [104, 105] 2).2)
      (strFromBytes [104, 105] emptyHeap).1 = 2 := by
  have h := (C3_refcount_lifecycle [104, 105] 2).2.2.2.2.1 1 (by omega)
  simpa using h

/-- C5 witness: the uninitialized-before-initialized conjunct at a handle
built from `"a"`: a default-constructed handle is `<` it and not `>` it. -/
theorem C5_comparisons_consistent_total_order_witness :
    strLt (strFromBytes [97] emptyHeap).2 Str.mkUninit (strFromBytes [97] emptyHeap).1 = true ∧
    strGt (strFromBytes [97] emptyHeap).2 Str.mkUninit (strFromBytes [97] emptyHeap).1
      = false :=
  ⟨(C5_comparisons_consistent_total_order.2.2.2.2.1 _ _ 0 rfl).1,
   (C5_comparisons_consistent_total_order.2.2.2.2.1 _ _ 0 rfl).2.2.2.2.2.1⟩

end CppStr
